import Mathlib

/-! # LinkBridge MIDI clock generator: verification development

Shallow embedding of the two Python scripts `clock.py` (static tempo) and
`debugAutomaticClock.py` (tempo-varying). Time is modelled with rationals;
the external MIDI transport (the C library behind `ctypes`) is modelled as
oracles giving the success/failure of each of its calls and the values of
its counters, and `time.monotonic()` as explicit per-call readings. -/

/-- Pulses per quarter note, the fixed MIDI clock resolution
(both scripts: `PPQN = 24`). -/
def PPQN : ℕ := 24

namespace AutoClock

/-- Initial tempo (both scripts: `BPM = 120`). -/
def BPM : ℚ := 120

/-- `debugAutomaticClock.py` lines 22-25: interval between MIDI clock ticks
in seconds for a given bpm. -/
def calculate_tick_interval (bpm : ℚ) : ℚ :=
  let ticks_per_second := bpm / 60 * (PPQN : ℚ)
  1 / ticks_per_second

/-- `debugAutomaticClock.py` line 100: the cyclic sequence of tempo changes. -/
def bpm_sequence : List ℚ := [80, 140, 120]

/-- Mutable state of the main loop of `debugAutomaticClock.py`
(lines 96-114 introduce these variables). -/
structure St where
  current_bpm : ℚ
  tick_interval : ℚ
  seq_index : ℕ
  next_change_time : ℚ
  next_tick_time : ℚ
  tick_count : ℕ
  beat_count : ℕ
deriving Repr, DecidableEq

/-- `debugAutomaticClock.py` lines 119-132: the tempo-change check.
`now` is the `time.monotonic()` reading of line 120 and `setTempoOk` the
success of the `midi_set_tempo` call. When a change is due, the tempo and
interval are updated only on success, but the index advance, the
10-second bump of `next_change_time` and the resync of `next_tick_time`
happen unconditionally. -/
def tempoChangeStep (st : St) (now : ℚ) (setTempoOk : Bool) : St :=
  if st.next_change_time ≤ now then
    let new_bpm := bpm_sequence.getD st.seq_index 0
    let st1 :=
      if setTempoOk then
        { st with current_bpm := new_bpm,
                  tick_interval := calculate_tick_interval new_bpm }
      else st
    { st1 with seq_index := (st1.seq_index + 1) % bpm_sequence.length,
               next_change_time := st1.next_change_time + 10,
               next_tick_time := now }
  else st

/-- `debugAutomaticClock.py` lines 139-145: increment the tick counter and,
on a beat boundary (`tick_count % PPQN == 0`), increment the beat counter
and emit a status report `(beat_count, tick_count, queue_tick)`, where
`queueTick` is the transport's own pulse counter read by
`midi_get_tick_count()`. -/
def pulseStep (st : St) (queueTick : ℕ) : St × Option (ℕ × ℕ × ℕ) :=
  let tc := st.tick_count + 1
  if tc % PPQN = 0 then
    ({ st with tick_count := tc, beat_count := st.beat_count + 1 },
     some (st.beat_count + 1, tc, queueTick))
  else
    ({ st with tick_count := tc }, none)

/-- `debugAutomaticClock.py` lines 147-157: advance the absolute deadline by
the current interval, compute the slack, sleep exactly the slack when it is
positive, otherwise continue at once, resyncing the deadline to the current
instant when the lag exceeds one interval. `tSlack` is the
`time.monotonic()` reading of line 149 and `tResync` the (later) reading of
line 157. Returns the new state and the length of the sleep performed. -/
def sleepStep (st : St) (tSlack tResync : ℚ) : St × ℚ :=
  let next_tick_time := st.next_tick_time + st.tick_interval
  let sleep_time := next_tick_time - tSlack
  if 0 < sleep_time then
    ({ st with next_tick_time := next_tick_time }, sleep_time)
  else if sleep_time < -st.tick_interval then
    ({ st with next_tick_time := tResync }, 0)
  else
    ({ st with next_tick_time := next_tick_time }, 0)

/-- One full iteration of the `while running` loop of
`debugAutomaticClock.py` (lines 118-157): tempo-change check, then the
clock pulse (`none` when the transport's `clock()` call fails, which breaks
the loop with the state as of the failure), then counters and
deadline/sleep. The result carries the sleep length performed. -/
def loopIter (st : St) (tChange tSlack tResync : ℚ) (setTempoOk clockOk : Bool)
    (queueTick : ℕ) : Option (St × ℚ) :=
  let st1 := tempoChangeStep st tChange setTempoOk
  if clockOk then
    let (st2, _report) := pulseStep st1 queueTick
    some (sleepStep st2 tSlack tResync)
  else
    none

/-- State of the reference scenario run: the loop state together with the
current instant of the monotonic clock. -/
structure SimSt where
  st : St
  t : ℚ
deriving Repr, DecidableEq

/-- Zero-processing-time execution of one loop iteration of
`debugAutomaticClock.py`: every `time.monotonic()` reading within the
iteration returns the same instant `t`, every transport call succeeds, and
the wall clock then advances by exactly the sleep length. -/
def simStep (s : SimSt) : SimSt :=
  match loopIter s.st s.t s.t s.t true true 0 with
  | some (st1, sleep) => ⟨st1, s.t + sleep⟩
  | none => s

/-- Iterated scenario steps: `simSteps k s` is the configuration after `k`
completed loop iterations from `s`. -/
def simSteps : ℕ → SimSt → SimSt
  | 0, s => s
  | k+1, s => simSteps k (simStep s)

/-- Initial configuration of `debugAutomaticClock.py` lines 96-114 with the
transport started at monotonic time 0: tempo `BPM = 120`, schedule index 0,
first change due at `0 + 10.0` seconds, deadline seeded to now, zero
counters. -/
def simStart : SimSt :=
  ⟨{ current_bpm := BPM, tick_interval := calculate_tick_interval BPM,
     seq_index := 0, next_change_time := 10, next_tick_time := 0,
     tick_count := 0, beat_count := 0 }, 0⟩

end AutoClock

namespace ClockPy

/-- `clock.py` line 10: the fixed tempo. -/
def BPM : ℚ := 120

/-- `clock.py` lines 22-26: interval between MIDI clock ticks in seconds at
the fixed global `BPM`. -/
def calculate_tick_interval : ℚ :=
  let ticks_per_second := BPM / 60 * (PPQN : ℚ)
  1 / ticks_per_second

/-- Mutable state of the main loop of `clock.py` (lines 91-98). -/
structure St where
  tick_interval : ℚ
  next_tick_time : ℚ
  tick_count : ℕ
  beat_count : ℕ
deriving Repr, DecidableEq

/-- `clock.py` lines 108-114: increment the tick counter and, on a beat
boundary, increment the beat counter and emit a status report
`(beat_count, tick_count, queue_tick)`. -/
def pulseStep (st : St) (queueTick : ℕ) : St × Option (ℕ × ℕ × ℕ) :=
  let tc := st.tick_count + 1
  if tc % PPQN = 0 then
    ({ st with tick_count := tc, beat_count := st.beat_count + 1 },
     some (st.beat_count + 1, tc, queueTick))
  else
    ({ st with tick_count := tc }, none)

/-- `clock.py` lines 116-126: advance the absolute deadline, sleep the slack
when positive, otherwise continue at once, resyncing when more than one
interval behind. `tSlack` is the `time.monotonic()` reading of line 118 and
`tResync` the reading of line 126. -/
def sleepStep (st : St) (tSlack tResync : ℚ) : St × ℚ :=
  let next_tick_time := st.next_tick_time + st.tick_interval
  let sleep_time := next_tick_time - tSlack
  if 0 < sleep_time then
    ({ st with next_tick_time := next_tick_time }, sleep_time)
  else if sleep_time < -st.tick_interval then
    ({ st with next_tick_time := tResync }, 0)
  else
    ({ st with next_tick_time := next_tick_time }, 0)

/-- Calls made against the external MIDI transport and the observable
shutdown actions, in the order they happen during a run of `clock.py`. -/
inductive Event where
  | init
  | start
  | clockCall (ok : Bool)
  | report (beat tick queueTick : ℕ)
  | stop
  | grace
  | cleanup
deriving Repr, DecidableEq

/-- Oracles for a run of `clock.py`: the value of the `running` flag each
time the `while` condition is checked, the result of each
`midi_send_clock()` call, the transport's pulse counter when read, the
`time.monotonic()` readings of the loop, and the reading that seeds
`next_tick_time` on line 96. -/
structure Env where
  runningAt : ℕ → Bool
  clockOk : ℕ → Bool
  queueTick : ℕ → ℕ
  tSlack : ℕ → ℚ
  tResync : ℕ → ℚ
  t0 : ℚ

/-- Results of the transport calls made before the loop. -/
structure Transport where
  initOk : Bool
  startOk : Bool
deriving Repr, DecidableEq

/-- State seeded at `clock.py` lines 91-98. -/
def startState (env : Env) : St :=
  { tick_interval := calculate_tick_interval, next_tick_time := env.t0,
    tick_count := 0, beat_count := 0 }

/-- The success path of one loop body of `clock.py` (lines 102-126, with
`midi_send_clock()` succeeding): counters, then deadline/sleep. -/
def loopBody (env : Env) (i : ℕ) (st : St) : St × List Event :=
  let (st1, rep) := pulseStep st (env.queueTick i)
  let (st2, _sleep) := sleepStep st1 (env.tSlack i) (env.tResync i)
  (st2, Event.clockCall true ::
    (match rep with
     | some (b, tc, q) => [Event.report b tc q]
     | none => []))

/-- `clock.py` lines 101-126: the `while running` loop, by fuel. Returns the
final state, whether the loop ended by a failed `midi_send_clock()` call
(`break`), and the events of the loop. -/
def clockLoop (env : Env) : ℕ → ℕ → St → St × Bool × List Event
  | 0, _, st => (st, false, [])
  | fuel+1, i, st =>
    if env.runningAt i then
      if env.clockOk i then
        let (st1, evs) := loopBody env i st
        let (stF, broke, evs1) := clockLoop env fuel (i+1) st1
        (stF, broke, evs ++ evs1)
      else
        (st, true, [Event.clockCall false])
    else
      (st, false, [])

/-- The success path of `n` consecutive loop bodies starting at iteration
index `i`, with the events they produce. -/
def runN (env : Env) : ℕ → ℕ → St → St × List Event
  | 0, _, st => (st, [])
  | n+1, i, st =>
    let (st1, evs) := loopBody env i st
    let (stF, evs1) := runN env n (i+1) st1
    (stF, evs ++ evs1)

/-- Result of a whole run of `clock.py`'s `main` from `midi_init()` onward:
the process exit status, the ordered trace of transport calls and shutdown
actions, and the counters printed by the shutdown report (lines 144-145). -/
structure RunResult where
  exitStatus : ℤ
  trace : List Event
  finalTicks : ℕ
  finalBeats : ℕ
deriving Repr, DecidableEq

/-- `clock.py` lines 66-148 (`main` from `midi_init()` onward): `init`
failure aborts with status 1; `start` failure after a successful `init`
runs `cleanup` and aborts with status 1; otherwise the loop runs and —
whether it ended by cancellation or by a failed `clock()` call — the
shutdown sequence `STOP`, 100 ms grace delay, `cleanup` runs, the final
counters are reported, and the function returns 0. -/
def main (tr : Transport) (env : Env) (fuel : ℕ) : RunResult :=
  if !tr.initOk then
    ⟨1, [Event.init], 0, 0⟩
  else if !tr.startOk then
    ⟨1, [Event.init, Event.start, Event.cleanup], 0, 0⟩
  else
    let (stF, _broke, evs) := clockLoop env fuel 0 (startState env)
    ⟨0, [Event.init, Event.start] ++ evs ++ [Event.stop, Event.grace, Event.cleanup],
     stF.tick_count, stF.beat_count⟩

end ClockPy

namespace AutoClock

/-- The tick interval is strictly positive for every positive bpm. -/
lemma calculate_tick_interval_pos (bpm : ℚ) (h : 0 < bpm) :
    0 < calculate_tick_interval bpm := by
  unfold calculate_tick_interval
  simp only [PPQN]
  positivity

/-- C8: for every bpm > 0 the tick-interval calculator returns exactly
`60 / (bpm * 24)` seconds, a strictly positive value; the static variant of
`clock.py` is its instance at the fixed `BPM`. The calculators are pure
Lean functions, hence deterministic and side-effect free. -/
theorem tick_interval_formula (bpm : ℚ) (h : 0 < bpm) :
    calculate_tick_interval bpm = 60 / (bpm * 24) ∧
    0 < calculate_tick_interval bpm ∧
    ClockPy.calculate_tick_interval = 60 / (ClockPy.BPM * 24) := by
  refine ⟨?_, calculate_tick_interval_pos bpm h, ?_⟩
  · unfold calculate_tick_interval
    simp only [PPQN]
    rw [div_eq_div_iff (by positivity) (by positivity)]
    ring
  · unfold ClockPy.calculate_tick_interval ClockPy.BPM
    norm_num [PPQN]

/-- Witness for C8 at bpm = 120. -/
theorem tick_interval_formula_witness :
    calculate_tick_interval 120 = 60 / (120 * 24) := by
  exact (tick_interval_formula 120 (by norm_num)).1

/-- A fixed concrete loop state used by counterexamples and witnesses:
tempo 120, schedule index 0, next change due at t = 10, deadline at t = 5. -/
def stA : St :=
  { current_bpm := 120, tick_interval := calculate_tick_interval 120,
    seq_index := 0, next_change_time := 10, next_tick_time := 5,
    tick_count := 0, beat_count := 0 }

/-- C2 counterexample: at a due schedule point (now = 10 ≥ next change time
10) where `set_tempo` fails, the tempo-change step moves the pulse deadline
from 5 to now = 10 — it is not left unchanged. -/
theorem tempo_resync_on_failure_cex :
    stA.next_change_time ≤ 10 ∧
    (tempoChangeStep stA 10 false).next_tick_time ≠ stA.next_tick_time := by
  constructor
  · norm_num [stA]
  · norm_num [tempoChangeStep, stA]

/-- C2 amended: whenever a schedule entry is due, the tempo-change step
resynchronizes `next_tick_time` to now, regardless of whether the
`set_tempo` call succeeded; the state is left untouched only when no entry
is due. -/
theorem tempo_resync_on_due (st : St) (now : ℚ) (ok : Bool) :
    (st.next_change_time ≤ now →
      (tempoChangeStep st now ok).next_tick_time = now) ∧
    (¬ st.next_change_time ≤ now → tempoChangeStep st now ok = st) := by
  constructor
  · intro hdue
    unfold tempoChangeStep
    rw [if_pos hdue]
  · intro hnot
    unfold tempoChangeStep
    rw [if_neg hnot]

/-- Witness for C2's amended theorem at the concrete state `stA`. -/
theorem tempo_resync_on_due_witness :
    (tempoChangeStep stA 10 false).next_tick_time = 10 := by
  exact (tempo_resync_on_due stA 10 false).1 (by norm_num [stA])

/-- C5: in an iteration where a schedule entry is due but `set_tempo`
fails, the tempo and the tick interval are unchanged by the tempo-change
step, the schedule index still advances by one modulo the schedule length,
the next change point moves 10 seconds on (the missed change is not
retried before it), and the loop keeps running: the iteration still
completes and yields a successor state. -/
theorem set_tempo_failure_keeps_tempo (st : St) (now : ℚ)
    (hdue : st.next_change_time ≤ now) :
    (tempoChangeStep st now false).current_bpm = st.current_bpm ∧
    (tempoChangeStep st now false).tick_interval = st.tick_interval ∧
    (tempoChangeStep st now false).seq_index
      = (st.seq_index + 1) % bpm_sequence.length ∧
    (tempoChangeStep st now false).next_change_time = st.next_change_time + 10 ∧
    (∀ tS tR q, (loopIter st now tS tR false true q).isSome = true) := by
  unfold tempoChangeStep
  rw [if_pos hdue]
  refine ⟨rfl, rfl, rfl, rfl, ?_⟩
  intro tS tR q
  unfold loopIter
  simp

/-- Witness for C5 at the concrete state `stA`. -/
theorem set_tempo_failure_keeps_tempo_witness :
    (tempoChangeStep stA 10 false).current_bpm = stA.current_bpm ∧
    (tempoChangeStep stA 10 false).seq_index = 1 := by
  have h := set_tempo_failure_keeps_tempo stA 10 (by norm_num [stA])
  refine ⟨h.1, ?_⟩
  rw [h.2.2.1]
  norm_num [stA, bpm_sequence]

end AutoClock

namespace AutoClock

/-- Unfolded form of `pulseStep`. -/
lemma pulseStep_eq (st : St) (q : ℕ) :
    pulseStep st q =
      ({ st with
           tick_count := st.tick_count + 1,
           beat_count := (if (st.tick_count + 1) % PPQN = 0
             then st.beat_count + 1 else st.beat_count) },
       (if (st.tick_count + 1) % PPQN = 0
         then some (st.beat_count + 1, st.tick_count + 1, q) else none)) := by
  simp only [pulseStep]
  split <;> simp_all

/-- Unfolded form of `sleepStep`. -/
lemma sleepStep_eq (st : St) (t1 t2 : ℚ) :
    sleepStep st t1 t2 =
      if 0 < st.next_tick_time + st.tick_interval - t1 then
        ({ st with next_tick_time := st.next_tick_time + st.tick_interval },
         st.next_tick_time + st.tick_interval - t1)
      else if st.next_tick_time + st.tick_interval - t1 < -st.tick_interval then
        ({ st with next_tick_time := t2 }, 0)
      else
        ({ st with next_tick_time := st.next_tick_time + st.tick_interval }, 0) :=
  rfl

/-- Unfolded form of `tempoChangeStep` at a due change point when
`set_tempo` succeeds. -/
lemma tempoChangeStep_ok_eq (st : St) (now : ℚ) (h : st.next_change_time ≤ now) :
    tempoChangeStep st now true =
      { st with current_bpm := bpm_sequence.getD st.seq_index 0,
                tick_interval := calculate_tick_interval (bpm_sequence.getD st.seq_index 0),
                seq_index := (st.seq_index + 1) % bpm_sequence.length,
                next_change_time := st.next_change_time + 10,
                next_tick_time := now } := by
  simp only [tempoChangeStep, if_pos h]
  rfl

/-- Unfolded form of `tempoChangeStep` at a due change point when
`set_tempo` fails. -/
lemma tempoChangeStep_fail_eq (st : St) (now : ℚ) (h : st.next_change_time ≤ now) :
    tempoChangeStep st now false =
      { st with seq_index := (st.seq_index + 1) % bpm_sequence.length,
                next_change_time := st.next_change_time + 10,
                next_tick_time := now } := by
  simp only [tempoChangeStep, if_pos h]
  rfl

/-- Unfolded form of `tempoChangeStep` when no change is due. -/
lemma tempoChangeStep_notdue (st : St) (now : ℚ) (ok : Bool)
    (h : ¬ st.next_change_time ≤ now) : tempoChangeStep st now ok = st := by
  simp only [tempoChangeStep, if_neg h]

/-- A loop iteration whose `clock()` call succeeds is the composition of the
three steps. -/
lemma loopIter_clock_ok (st : St) (tC tS tR : ℚ) (sOk : Bool) (q : ℕ) :
    loopIter st tC tS tR sOk true q
      = some (sleepStep ((pulseStep (tempoChangeStep st tC sOk) q).1) tS tR) := by
  simp only [loopIter, if_pos]

end AutoClock

namespace AutoClock

/-- C4: in an iteration where a due schedule entry is applied successfully
(`set_tempo` succeeds) and the iteration's processing takes no time (the
slack reading equals `now`), the tempo-change step resynchronizes the
deadline to `now` and installs the new interval, and the sleep performed by
the iteration is exactly the new tempo's tick interval, placing the next
deadline at `now` plus that interval — so the pulse-to-pulse gap after the
change equals one new-tempo interval, not a mix of old and new. The last
conjunct checks that the composition examined here is the loop body
itself. -/
theorem applied_change_resync (st : St) (now tR : ℚ) (q : ℕ)
    (hdue : st.next_change_time ≤ now)
    (hb : 0 < bpm_sequence.getD st.seq_index 0) :
    (tempoChangeStep st now true).next_tick_time = now ∧
    (tempoChangeStep st now true).tick_interval
      = calculate_tick_interval (bpm_sequence.getD st.seq_index 0) ∧
    (sleepStep ((pulseStep (tempoChangeStep st now true) q).1) now tR).2
      = calculate_tick_interval (bpm_sequence.getD st.seq_index 0) ∧
    (sleepStep ((pulseStep (tempoChangeStep st now true) q).1) now tR).1.next_tick_time
      = now + calculate_tick_interval (bpm_sequence.getD st.seq_index 0) ∧
    loopIter st now now tR true true q
      = some (sleepStep ((pulseStep (tempoChangeStep st now true) q).1) now tR) := by
  have hpos : 0 < calculate_tick_interval (bpm_sequence.getD st.seq_index 0) :=
    calculate_tick_interval_pos _ hb
  have e1 := tempoChangeStep_ok_eq st now hdue
  have h2 : ((pulseStep (tempoChangeStep st now true) q).1).next_tick_time = now := by
    rw [pulseStep_eq]
    rw [e1]
  have h3 : ((pulseStep (tempoChangeStep st now true) q).1).tick_interval
      = calculate_tick_interval (bpm_sequence.getD st.seq_index 0) := by
    rw [pulseStep_eq]
    rw [e1]
  have hc : 0 < ((pulseStep (tempoChangeStep st now true) q).1).next_tick_time
      + ((pulseStep (tempoChangeStep st now true) q).1).tick_interval - now := by
    rw [h2, h3]
    linarith
  refine ⟨by rw [e1], by rw [e1], ?_, ?_, loopIter_clock_ok st now now tR true q⟩
  · rw [sleepStep_eq, if_pos hc, h2, h3]
    ring
  · rw [sleepStep_eq, if_pos hc]
    show ((pulseStep (tempoChangeStep st now true) q).1).next_tick_time
      + ((pulseStep (tempoChangeStep st now true) q).1).tick_interval = _
    rw [h2, h3]

/-- Witness for C4 at the concrete state `stA` (entry 80 applied at
now = 10). -/
theorem applied_change_resync_witness :
    (tempoChangeStep stA 10 true).next_tick_time = 10 ∧
    (sleepStep ((pulseStep (tempoChangeStep stA 10 true) 0).1) 10 10).2
      = calculate_tick_interval 80 := by
  have h := applied_change_resync stA 10 10 0 (by norm_num [stA])
    (by norm_num [bpm_sequence, stA])
  refine ⟨h.1, ?_⟩
  rw [h.2.2.1]
  norm_num [stA, bpm_sequence]

/-- C6: for every iteration, writing `slack` for the advanced deadline
minus the reading `t1` taken after the pulse: a positive slack is slept in
full and the deadline keeps its absolute-arithmetic value; a non-positive
slack causes no sleep at all, the next cycle proceeding immediately; a
slack more than one full interval behind resynchronizes the deadline to the
fresh reading `t2` of the current instant; and a completed iteration grows
the tick counter by exactly one — one pulse per cycle, so lost phase is
never repaid by a burst of pulses. -/
theorem slack_sleep_resync (st : St) (t1 t2 : ℚ)
    (hI : 0 < st.tick_interval) :
    (0 < st.next_tick_time + st.tick_interval - t1 →
      sleepStep st t1 t2
        = ({ st with next_tick_time := st.next_tick_time + st.tick_interval },
           st.next_tick_time + st.tick_interval - t1)) ∧
    (st.next_tick_time + st.tick_interval - t1 ≤ 0 →
      (sleepStep st t1 t2).2 = 0) ∧
    (st.next_tick_time + st.tick_interval - t1 < -st.tick_interval →
      (sleepStep st t1 t2).1.next_tick_time = t2) ∧
    (∀ (tC tS tR : ℚ) (sOk : Bool) (q : ℕ) (st1 : St) (sl : ℚ),
      loopIter st tC tS tR sOk true q = some (st1, sl) →
      st1.tick_count = st.tick_count + 1) := by
  refine ⟨?_, ?_, ?_, ?_⟩
  · intro hpos
    rw [sleepStep_eq, if_pos hpos]
  · intro hnp
    rw [sleepStep_eq, if_neg (by linarith)]
    split <;> rfl
  · intro hlag
    rw [sleepStep_eq, if_neg (by linarith), if_pos hlag]
  · intro tC tS tR sOk q st1 sl h
    rw [loopIter_clock_ok] at h
    have h2 := Option.some.inj h
    have htcp : ((pulseStep (tempoChangeStep st tC sOk) q).1).tick_count
        = st.tick_count + 1 := by
      have hkeep : (tempoChangeStep st tC sOk).tick_count = st.tick_count := by
        rcases le_or_lt st.next_change_time tC with hd | hd
        · cases sOk
          · rw [tempoChangeStep_fail_eq st tC hd]
          · rw [tempoChangeStep_ok_eq st tC hd]
        · rw [tempoChangeStep_notdue st tC _ (not_le.mpr hd)]
      rw [pulseStep_eq]
      simpa using hkeep
    have hsl : ((sleepStep ((pulseStep (tempoChangeStep st tC sOk) q).1) tS tR).1).tick_count
        = st.tick_count + 1 := by
      rw [sleepStep_eq]
      split
      · simpa using htcp
      · split <;> simpa using htcp
    calc st1.tick_count
        = ((st1, sl).1 : St).tick_count := rfl
      _ = st.tick_count + 1 := by rw [← h2]; exact hsl

/-- Witness for C6: a state one-and-then-some intervals behind resyncs its
deadline to the fresh reading 9. -/
theorem slack_sleep_resync_witness :
    (sleepStep { current_bpm := 120, tick_interval := 1/48, seq_index := 0,
                 next_change_time := 10, next_tick_time := 0,
                 tick_count := 0, beat_count := 0 } 9 9).1.next_tick_time = 9 := by
  exact (slack_sleep_resync _ 9 9 (by norm_num)).2.2.1 (by norm_num)

end AutoClock

namespace ClockPy

/-- Unfolded form of `pulseStep` (static variant). -/
lemma pulseStepStatic_eq (st : St) (q : ℕ) :
    pulseStep st q =
      ({ st with
           tick_count := st.tick_count + 1,
           beat_count := (if (st.tick_count + 1) % PPQN = 0
             then st.beat_count + 1 else st.beat_count) },
       (if (st.tick_count + 1) % PPQN = 0
         then some (st.beat_count + 1, st.tick_count + 1, q) else none)) := by
  simp only [pulseStep]
  split <;> simp_all

/-- Unfolded form of `sleepStep` (static variant). -/
lemma sleepStepStatic_eq (st : St) (t1 t2 : ℚ) :
    sleepStep st t1 t2 =
      if 0 < st.next_tick_time + st.tick_interval - t1 then
        ({ st with next_tick_time := st.next_tick_time + st.tick_interval },
         st.next_tick_time + st.tick_interval - t1)
      else if st.next_tick_time + st.tick_interval - t1 < -st.tick_interval then
        ({ st with next_tick_time := t2 }, 0)
      else
        ({ st with next_tick_time := st.next_tick_time + st.tick_interval }, 0) :=
  rfl

/-- The sleep step leaves both counters untouched. -/
lemma sleepStep_counters (st : St) (t1 t2 : ℚ) :
    (sleepStep st t1 t2).1.tick_count = st.tick_count ∧
    (sleepStep st t1 t2).1.beat_count = st.beat_count := by
  rw [sleepStepStatic_eq]
  split
  · exact ⟨rfl, rfl⟩
  · split
    · exact ⟨rfl, rfl⟩
    · exact ⟨rfl, rfl⟩

/-- Projection form of the loop body. -/
lemma loopBody_eq (env : Env) (i : ℕ) (st : St) :
    loopBody env i st
      = ((sleepStep (pulseStep st (env.queueTick i)).1 (env.tSlack i) (env.tResync i)).1,
         Event.clockCall true ::
           (match (pulseStep st (env.queueTick i)).2 with
            | some (b, tc, q2) => [Event.report b tc q2]
            | none => [])) :=
  rfl

/-- Counter behavior of one successful loop body. -/
lemma loopBody_counters (env : Env) (i : ℕ) (st : St) :
    (loopBody env i st).1.tick_count = st.tick_count + 1 ∧
    (loopBody env i st).1.beat_count
      = (if (st.tick_count + 1) % PPQN = 0
         then st.beat_count + 1 else st.beat_count) := by
  rw [loopBody_eq]
  constructor
  · show (sleepStep (pulseStep st (env.queueTick i)).1 _ _).1.tick_count = _
    rw [(sleepStep_counters _ _ _).1, pulseStepStatic_eq]
  · show (sleepStep (pulseStep st (env.queueTick i)).1 _ _).1.beat_count = _
    rw [(sleepStep_counters _ _ _).2, pulseStepStatic_eq]

/-- Dividing the successor by 24 absorbs the beat increment of the code. -/
lemma succ_div_24 (t : ℕ) :
    (if (t + 1) % 24 = 0 then t / 24 + 1 else t / 24) = (t + 1) / 24 := by
  split <;> omega

/-- After `n` successful loop bodies the tick counter has grown by exactly
`n`, and the beat counter is still the floor of the tick counter over 24. -/
lemma runN_counters (env : Env) :
    ∀ (n i : ℕ) (st : St), st.beat_count = st.tick_count / 24 →
    (runN env n i st).1.tick_count = st.tick_count + n ∧
    (runN env n i st).1.beat_count = (st.tick_count + n) / 24 := by
  intro n
  induction n with
  | zero =>
      intro i st h
      constructor
      · rfl
      · simpa using h
  | succ n ih =>
      intro i st h
      have hb := loopBody_counters env i st
      have hinv : (loopBody env i st).1.beat_count = (loopBody env i st).1.tick_count / 24 := by
        rw [hb.1, hb.2, h]
        simpa [PPQN] using succ_div_24 st.tick_count
      have hrec := ih (i+1) ((loopBody env i st).1) hinv
      have e : runN env (n+1) i st
          = ((runN env n (i+1) (loopBody env i st).1).1,
             (loopBody env i st).2 ++ (runN env n (i+1) (loopBody env i st).1).2) := rfl
      rw [e]
      refine ⟨?_, ?_⟩
      · show (runN env n (i+1) (loopBody env i st).1).1.tick_count = _
        rw [hrec.1, hb.1]
        omega
      · show (runN env n (i+1) (loopBody env i st).1).1.beat_count = _
        rw [hrec.2, hb.1]
        congr 1
        omega

/-- Events of `n` successful loop bodies: `n` successful clock pulses,
no `STOP` and no `cleanup`. -/
lemma runN_trace (env : Env) :
    ∀ (n i : ℕ) (st : St),
    (runN env n i st).2.count (Event.clockCall true) = n ∧
    (runN env n i st).2.count Event.stop = 0 ∧
    (runN env n i st).2.count Event.cleanup = 0 := by
  intro n
  induction n with
  | zero =>
      intro i st
      exact ⟨rfl, rfl, rfl⟩
  | succ n ih =>
      intro i st
      have hrec := ih (i+1) ((loopBody env i st).1)
      have e : runN env (n+1) i st
          = ((runN env n (i+1) (loopBody env i st).1).1,
             (loopBody env i st).2 ++ (runN env n (i+1) (loopBody env i st).1).2) := rfl
      rw [e]
      have hbody : ((loopBody env i st).2.count (Event.clockCall true) = 1) ∧
          ((loopBody env i st).2.count Event.stop = 0) ∧
          ((loopBody env i st).2.count Event.cleanup = 0) := by
        rw [loopBody_eq]
        rcases (pulseStep st (env.queueTick i)).2 with _ | ⟨b, tc, q2⟩ <;>
          simp [List.count_cons]
      refine ⟨?_, ?_, ?_⟩ <;>
        · show List.count _ (_ ++ _) = _
          rw [List.count_append]
          omega
  

end ClockPy

namespace ClockPy

/-- Step equation of the loop when the `while` condition holds and the
clock call succeeds. -/
lemma clockLoop_succ_ok (env : Env) (fuel i : ℕ) (st : St)
    (h1 : env.runningAt i = true) (h2 : env.clockOk i = true) :
    clockLoop env (fuel+1) i st
      = ((clockLoop env fuel (i+1) (loopBody env i st).1).1,
         (clockLoop env fuel (i+1) (loopBody env i st).1).2.1,
         (loopBody env i st).2 ++ (clockLoop env fuel (i+1) (loopBody env i st).1).2.2) := by
  show (if env.runningAt i then _ else _) = _
  rw [h1]
  show (if env.clockOk i then _ else _) = _
  rw [h2]
  rfl

/-- A run in which the first `m` iterations succeed and the cancellation
flag is observed at iteration `m` ends by cancellation: the final state and
trace are those of the `m` successful bodies, and no break happened. -/
lemma clockLoop_cancel (env : Env) :
    ∀ (m fuel i : ℕ) (st : St),
    (∀ j, j < m → env.runningAt (i+j) = true ∧ env.clockOk (i+j) = true) →
    env.runningAt (i+m) = false →
    m < fuel →
    clockLoop env fuel i st = ((runN env m i st).1, false, (runN env m i st).2) := by
  intro m
  induction m with
  | zero =>
      intro fuel i st _ hstop hf
      obtain ⟨f, rfl⟩ : ∃ f, fuel = f + 1 := ⟨fuel - 1, by omega⟩
      show (if env.runningAt i then _ else _) = _
      rw [show env.runningAt i = false by simpa using hstop]
      rfl
  | succ m ih =>
      intro fuel i st hok hstop hf
      obtain ⟨f, rfl⟩ : ∃ f, fuel = f + 1 := ⟨fuel - 1, by omega⟩
      have h0 := hok 0 (by omega)
      rw [clockLoop_succ_ok env f i st (by simpa using h0.1) (by simpa using h0.2)]
      have hrec := ih f (i+1) ((loopBody env i st).1)
        (fun j hj => by
          have := hok (j+1) (by omega)
          constructor
          · rw [show i + 1 + j = i + (j + 1) by omega]
            exact this.1
          · rw [show i + 1 + j = i + (j + 1) by omega]
            exact this.2)
        (by rw [show i + 1 + m = i + (m + 1) by omega]; exact hstop)
        (by omega)
      rw [hrec]
      rfl

/-- A run in which the first `m` iterations succeed and the clock call
fails at iteration `m` (with the loop still running) ends by `break`: the
final state is that of the `m` successful bodies and the trace ends with
the failed clock call. -/
lemma clockLoop_break (env : Env) :
    ∀ (m fuel i : ℕ) (st : St),
    (∀ j, j < m → env.runningAt (i+j) = true ∧ env.clockOk (i+j) = true) →
    env.runningAt (i+m) = true →
    env.clockOk (i+m) = false →
    m < fuel →
    clockLoop env fuel i st
      = ((runN env m i st).1, true, (runN env m i st).2 ++ [Event.clockCall false]) := by
  intro m
  induction m with
  | zero =>
      intro fuel i st _ hrun hstop hf
      obtain ⟨f, rfl⟩ : ∃ f, fuel = f + 1 := ⟨fuel - 1, by omega⟩
      show (if env.runningAt i then _ else _) = _
      rw [show env.runningAt i = true by simpa using hrun]
      show (if env.clockOk i then _ else _) = _
      rw [show env.clockOk i = false by simpa using hstop]
      rfl
  | succ m ih =>
      intro fuel i st hok hrun hstop hf
      obtain ⟨f, rfl⟩ : ∃ f, fuel = f + 1 := ⟨fuel - 1, by omega⟩
      have h0 := hok 0 (by omega)
      rw [clockLoop_succ_ok env f i st (by simpa using h0.1) (by simpa using h0.2)]
      have hrec := ih f (i+1) ((loopBody env i st).1)
        (fun j hj => by
          have := hok (j+1) (by omega)
          constructor
          · rw [show i + 1 + j = i + (j + 1) by omega]
            exact this.1
          · rw [show i + 1 + j = i + (j + 1) by omega]
            exact this.2)
        (by rw [show i + 1 + m = i + (m + 1) by omega]; exact hrun)
        (by rw [show i + 1 + m = i + (m + 1) by omega]; exact hstop)
        (by omega)
      rw [hrec]
      have e : runN env (m+1) i st
          = ((runN env m (i+1) (loopBody env i st).1).1,
             (loopBody env i st).2 ++ (runN env m (i+1) (loopBody env i st).1).2) := rfl
      rw [e]
      simp

end ClockPy

namespace ClockPy

/-- Shape of `main` once `init` and `start` both succeeded: the loop output
framed by the start calls and the shutdown sequence, with exit status 0. -/
lemma main_started (tr : Transport) (env : Env) (fuel : ℕ)
    (hi : tr.initOk = true) (hs : tr.startOk = true) :
    main tr env fuel
      = ⟨0, [Event.init, Event.start] ++ (clockLoop env fuel 0 (startState env)).2.2
            ++ [Event.stop, Event.grace, Event.cleanup],
         (clockLoop env fuel 0 (startState env)).1.tick_count,
         (clockLoop env fuel 0 (startState env)).1.beat_count⟩ := by
  simp only [main, hi, hs, Bool.not_true, Bool.false_eq_true, if_false]

/-- Shape of `main` when `start` fails after a successful `init`. -/
lemma main_start_failed (tr : Transport) (env : Env) (fuel : ℕ)
    (hi : tr.initOk = true) (hs : tr.startOk = false) :
    main tr env fuel = ⟨1, [Event.init, Event.start, Event.cleanup], 0, 0⟩ := by
  simp only [main, hi, hs, Bool.not_true, Bool.not_false, Bool.false_eq_true,
    if_false, if_true]

/-- C7: with `init` and `start` succeeding, `N` loop iterations completing
with no failures and the cancellation flag observed at iteration `N`: the
reported pulse count equals `N`; the reported beat count is `⌊N / 24⌋`; at
every intermediate point `m` of the run the counters satisfy
`tick_count = m` and `beat_count = ⌊m / 24⌋`; and the status report of a
pulse is emitted exactly when the new pulse count is divisible by `PPQN`,
carrying the beat number, the cumulative pulse count and the transport's
own pulse counter. -/
theorem pulse_beat_counters (tr : Transport) (env : Env) (fuel N : ℕ)
    (hi : tr.initOk = true) (hs : tr.startOk = true)
    (hok : ∀ j, j < N → env.runningAt j = true ∧ env.clockOk j = true)
    (hcancel : env.runningAt N = false) (hf : N < fuel) :
    (main tr env fuel).finalTicks = N ∧
    (main tr env fuel).finalBeats = N / 24 ∧
    (∀ m, m ≤ N →
      (runN env m 0 (startState env)).1.tick_count = m ∧
      (runN env m 0 (startState env)).1.beat_count = m / 24) ∧
    (∀ (st : St) (q : ℕ),
      (pulseStep st q).2
        = (if (st.tick_count + 1) % PPQN = 0
           then some (st.beat_count + 1, st.tick_count + 1, q) else none)) := by
  have hc := clockLoop_cancel env N fuel 0 (startState env)
    (fun j hj => by simpa using hok j hj) (by simpa using hcancel) hf
  have hcount := runN_counters env N 0 (startState env) (by simp [startState])
  have hstart : (startState env).tick_count = 0 := rfl
  rw [main_started tr env fuel hi hs]
  refine ⟨?_, ?_, ?_, ?_⟩
  · show (clockLoop env fuel 0 (startState env)).1.tick_count = N
    rw [hc, hcount.1, hstart]
    omega
  · show (clockLoop env fuel 0 (startState env)).1.beat_count = N / 24
    rw [hc, hcount.2, hstart]
    omega
  · intro m _
    have h := runN_counters env m 0 (startState env) (by simp [startState])
    rw [hstart] at h
    constructor
    · rw [h.1]
      omega
    · rw [h.2]
      omega
  · intro st q
    rw [pulseStepStatic_eq]

/-- Oracle for the C7 witness: the loop runs 24 clean iterations and is
then cancelled. -/
def envBeat : Env :=
  { runningAt := fun i => decide (i < 24), clockOk := fun _ => true,
    queueTick := fun _ => 0, tSlack := fun _ => 0, tResync := fun _ => 0,
    t0 := 0 }

/-- Witness for C7: after 24 completed cycles the run reports 24 pulses and
1 beat. -/
theorem pulse_beat_counters_witness :
    (main ⟨true, true⟩ envBeat 25).finalTicks = 24 ∧
    (main ⟨true, true⟩ envBeat 25).finalBeats = 1 := by
  have h := pulse_beat_counters ⟨true, true⟩ envBeat 25 24 rfl rfl
    (fun j hj => ⟨by simpa [envBeat] using hj, rfl⟩) (by simp [envBeat]) (by omega)
  exact ⟨h.1, h.2.1⟩

/-- Oracle for the C1 counterexample: the very first `midi_send_clock()`
call fails. -/
def envFail : Env :=
  { runningAt := fun _ => true, clockOk := fun _ => false,
    queueTick := fun _ => 0, tSlack := fun _ => 0, tResync := fun _ => 0,
    t0 := 0 }

/-- C1 counterexample: `init` and `start` succeed, the loop is running and
the transport's `clock()` call fails during the run — yet `main` returns
exit status 0 (`clock.py` line 148 returns 0 after the `break`), not a
non-zero status. -/
theorem clock_failure_exit_status_cex :
    (⟨true, true⟩ : Transport).initOk = true ∧
    (⟨true, true⟩ : Transport).startOk = true ∧
    envFail.runningAt 0 = true ∧
    envFail.clockOk 0 = false ∧
    (main ⟨true, true⟩ envFail 3).exitStatus = 0 := by
  refine ⟨rfl, rfl, rfl, rfl, ?_⟩
  rw [main_started ⟨true, true⟩ envFail 3 rfl rfl]

/-- C1 amended: if the transport's `clock()` call fails at iteration `k` of
a running loop, the loop stops immediately — exactly the `k` pulses sent
before the failure appear in the trace — the shutdown sequence (STOP, grace
delay, cleanup) still runs, the counters as of the failure are reported,
and the run returns exit status 0 (`clock.py` returns 0 on this path, not a
non-zero status). -/
theorem clock_failure_shutdown (tr : Transport) (env : Env) (fuel k : ℕ)
    (hi : tr.initOk = true) (hs : tr.startOk = true)
    (hok : ∀ j, j < k → env.runningAt j = true ∧ env.clockOk j = true)
    (hrun : env.runningAt k = true) (hfail : env.clockOk k = false)
    (hf : k < fuel) :
    (main tr env fuel).exitStatus = 0 ∧
    (main tr env fuel).finalTicks = k ∧
    (main tr env fuel).finalBeats = k / 24 ∧
    (main tr env fuel).trace
      = [Event.init, Event.start] ++ (runN env k 0 (startState env)).2
        ++ [Event.clockCall false] ++ [Event.stop, Event.grace, Event.cleanup] ∧
    (runN env k 0 (startState env)).2.count (Event.clockCall true) = k := by
  have hb := clockLoop_break env k fuel 0 (startState env)
    (fun j hj => by simpa using hok j hj) (by simpa using hrun)
    (by simpa using hfail) hf
  have hcount := runN_counters env k 0 (startState env) (by simp [startState])
  have hstart : (startState env).tick_count = 0 := rfl
  rw [main_started tr env fuel hi hs]
  refine ⟨rfl, ?_, ?_, ?_, (runN_trace env k 0 (startState env)).1⟩
  · show (clockLoop env fuel 0 (startState env)).1.tick_count = k
    rw [hb, hcount.1, hstart]
    omega
  · show (clockLoop env fuel 0 (startState env)).1.beat_count = k / 24
    rw [hb, hcount.2, hstart]
    omega
  · show [Event.init, Event.start] ++ (clockLoop env fuel 0 (startState env)).2.2
        ++ [Event.stop, Event.grace, Event.cleanup] = _
    rw [hb]
    simp [List.append_assoc]

/-- Witness for C1's amended theorem: failure at the very first iteration
reports zero pulses and exits with status 0 after the shutdown sequence. -/
theorem clock_failure_shutdown_witness :
    (main ⟨true, true⟩ envFail 3).exitStatus = 0 ∧
    (main ⟨true, true⟩ envFail 3).finalTicks = 0 ∧
    (main ⟨true, true⟩ envFail 3).trace
      = [Event.init, Event.start, Event.clockCall false,
         Event.stop, Event.grace, Event.cleanup] := by
  have h := clock_failure_shutdown ⟨true, true⟩ envFail 3 0 rfl rfl
    (fun j hj => absurd hj (Nat.not_lt_zero j)) rfl rfl (by omega)
  refine ⟨h.1, h.2.1, ?_⟩
  rw [h.2.2.2.1]
  rfl

end ClockPy

namespace ClockPy

/-- C9: `cleanup` runs exactly once before `main` returns on every
terminating path, and the `STOP` message is sent exactly once on the paths
that reached `Running` — whether the loop ended by an observed cancellation
request or by a mid-run `clock()` failure; when `start` fails after a
successful `init`, no pulse and no STOP is sent but `cleanup` still runs
exactly once before returning. In each case the trace ends with the
`cleanup` call. -/
theorem stop_cleanup_exactly_once (tr : Transport) (env : Env) (fuel N : ℕ) :
    (tr.initOk = true → tr.startOk = false →
      (main tr env fuel).trace.count Event.cleanup = 1 ∧
      (main tr env fuel).trace.count Event.stop = 0 ∧
      (main tr env fuel).trace.count (Event.clockCall true) = 0 ∧
      ∃ pre, (main tr env fuel).trace = pre ++ [Event.cleanup]) ∧
    (tr.initOk = true → tr.startOk = true →
      (∀ j, j < N → env.runningAt j = true ∧ env.clockOk j = true) →
      (env.runningAt N = false ∨ (env.runningAt N = true ∧ env.clockOk N = false)) →
      N < fuel →
      (main tr env fuel).trace.count Event.stop = 1 ∧
      (main tr env fuel).trace.count Event.cleanup = 1 ∧
      ∃ pre, (main tr env fuel).trace = pre ++ [Event.cleanup]) := by
  constructor
  · intro hi hs
    rw [main_start_failed tr env fuel hi hs]
    refine ⟨rfl, rfl, rfl, [Event.init, Event.start], rfl⟩
  · intro hi hs hok hend hf
    rw [main_started tr env fuel hi hs]
    have htr := runN_trace env N 0 (startState env)
    rcases hend with hcancel | ⟨hrun, hfail⟩
    · rw [clockLoop_cancel env N fuel 0 (startState env)
        (fun j hj => by simpa using hok j hj) (by simpa using hcancel) hf]
      refine ⟨?_, ?_, ?_⟩
      · simp only [List.count_append]
        rw [htr.2.1]
        rfl
      · simp only [List.count_append]
        rw [htr.2.2]
        rfl
      · exact ⟨[Event.init, Event.start] ++ (runN env N 0 (startState env)).2
          ++ [Event.stop, Event.grace], by simp⟩
    · rw [clockLoop_break env N fuel 0 (startState env)
        (fun j hj => by simpa using hok j hj) (by simpa using hrun)
        (by simpa using hfail) hf]
      refine ⟨?_, ?_, ?_⟩
      · simp only [List.count_append]
        rw [htr.2.1]
        rfl
      · simp only [List.count_append]
        rw [htr.2.2]
        rfl
      · exact ⟨[Event.init, Event.start]
          ++ ((runN env N 0 (startState env)).2 ++ [Event.clockCall false])
          ++ [Event.stop, Event.grace], by simp⟩

/-- Oracle for the C9 witness: one clean iteration, then cancellation. -/
def envCancel : Env :=
  { runningAt := fun i => decide (i < 1), clockOk := fun _ => true,
    queueTick := fun _ => 0, tSlack := fun _ => 0, tResync := fun _ => 0,
    t0 := 0 }

/-- Witness for C9: a run cancelled after one iteration sends STOP once and
cleans up once. -/
theorem stop_cleanup_exactly_once_witness :
    (main ⟨true, true⟩ envCancel 2).trace.count Event.stop = 1 ∧
    (main ⟨true, true⟩ envCancel 2).trace.count Event.cleanup = 1 := by
  have h := (stop_cleanup_exactly_once ⟨true, true⟩ envCancel 2 1).2 rfl rfl
    (fun j hj => ⟨by simpa [envCancel] using hj, rfl⟩)
    (Or.inl (by simp [envCancel])) (by omega)
  exact ⟨h.1, h.2.1⟩

end ClockPy

namespace AutoClock

/-- Oracles for the tempo-varying loop of `debugAutomaticClock.py`: the
`time.monotonic()` readings of each iteration and the transport pulse
counter. -/
structure Env where
  tChange : ℕ → ℚ
  tSlack : ℕ → ℚ
  tResync : ℕ → ℚ
  queueTick : ℕ → ℕ

/-- The tempo the tempo-change check of an iteration hands to
`midi_set_tempo`: the entry at the current schedule index when a change is
due, nothing otherwise. -/
def appliedTempo (st : St) (now : ℚ) : Option ℚ :=
  if st.next_change_time ≤ now then some (bpm_sequence.getD st.seq_index 0)
  else none

/-- The all-success loop body of `debugAutomaticClock.py` (both
`midi_set_tempo` and `midi_send_clock` succeed). -/
def loopBodyOk (env : Env) (i : ℕ) (st : St) : St :=
  (sleepStep ((pulseStep (tempoChangeStep st (env.tChange i) true)
    (env.queueTick i)).1) (env.tSlack i) (env.tResync i)).1

/-- `n` consecutive all-success loop iterations from iteration index `i`,
collecting the tempo applied at each iteration in order. -/
def autoRunN (env : Env) : ℕ → ℕ → St → St × List ℚ
  | 0, _, st => (st, [])
  | n+1, i, st =>
    ((autoRunN env n (i+1) (loopBodyOk env i st)).1,
     (appliedTempo st (env.tChange i)).toList
       ++ (autoRunN env n (i+1) (loopBodyOk env i st)).2)

/-- The pulse step does not touch the schedule state. -/
lemma pulseStep_sched (st : St) (q : ℕ) :
    (pulseStep st q).1.seq_index = st.seq_index ∧
    (pulseStep st q).1.next_change_time = st.next_change_time := by
  rw [pulseStep_eq]
  exact ⟨rfl, rfl⟩

/-- The sleep step does not touch the schedule state. -/
lemma sleepStep_sched (st : St) (t1 t2 : ℚ) :
    (sleepStep st t1 t2).1.seq_index = st.seq_index ∧
    (sleepStep st t1 t2).1.next_change_time = st.next_change_time := by
  rw [sleepStep_eq]
  split
  · exact ⟨rfl, rfl⟩
  · split
    · exact ⟨rfl, rfl⟩
    · exact ⟨rfl, rfl⟩

/-- Schedule state after one all-success body at a due change point. -/
lemma loopBodyOk_sched (env : Env) (i : ℕ) (st : St)
    (hdue : st.next_change_time ≤ env.tChange i) :
    (loopBodyOk env i st).seq_index = (st.seq_index + 1) % 3 ∧
    (loopBodyOk env i st).next_change_time = st.next_change_time + 10 := by
  unfold loopBodyOk
  rw [(sleepStep_sched _ _ _).1, (sleepStep_sched _ _ _).2,
      (pulseStep_sched _ _).1, (pulseStep_sched _ _).2,
      tempoChangeStep_ok_eq st (env.tChange i) hdue]
  exact ⟨rfl, rfl⟩

/-- Draining overdue schedule entries: when the next `k` iterations all
observe an overdue change point, each iteration applies exactly one entry,
in schedule order, advancing the index by one and the change point by 10
seconds per iteration. -/
lemma autoRunN_overdue (env : Env) :
    ∀ (k i : ℕ) (st : St), st.seq_index < 3 →
    (∀ j, j < k → st.next_change_time + 10 * j ≤ env.tChange (i + j)) →
    (autoRunN env k i st).1.seq_index = (st.seq_index + k) % 3 ∧
    (autoRunN env k i st).1.next_change_time = st.next_change_time + 10 * k ∧
    (autoRunN env k i st).2
      = (List.range k).map (fun j => bpm_sequence.getD ((st.seq_index + j) % 3) 0) := by
  intro k
  induction k with
  | zero =>
      intro i st hidx _
      refine ⟨?_, ?_, rfl⟩
      · show st.seq_index = (st.seq_index + 0) % 3
        omega
      · show st.next_change_time = st.next_change_time + 10 * ((0:ℕ):ℚ)
        norm_num
  | succ k ih =>
      intro i st hidx hdue
      have hdue0 : st.next_change_time ≤ env.tChange i := by
        have h := hdue 0 (by omega)
        simpa using h
      have hsched := loopBodyOk_sched env i st hdue0
      have hrec := ih (i+1) (loopBodyOk env i st)
        (by rw [hsched.1]; omega)
        (fun j hj => by
          rw [hsched.2]
          have h := hdue (j+1) (by omega)
          rw [show i + (j + 1) = i + 1 + j by omega] at h
          push_cast at h ⊢
          linarith)
      have e : autoRunN env (k+1) i st
          = ((autoRunN env k (i+1) (loopBodyOk env i st)).1,
             (appliedTempo st (env.tChange i)).toList
               ++ (autoRunN env k (i+1) (loopBodyOk env i st)).2) := rfl
      rw [e]
      refine ⟨?_, ?_, ?_⟩
      · show (autoRunN env k (i+1) (loopBodyOk env i st)).1.seq_index = _
        rw [hrec.1, hsched.1]
        omega
      · show (autoRunN env k (i+1) (loopBodyOk env i st)).1.next_change_time = _
        rw [hrec.2.1, hsched.2]
        push_cast
        ring
      · show (appliedTempo st (env.tChange i)).toList
            ++ (autoRunN env k (i+1) (loopBodyOk env i st)).2 = _
        rw [hrec.2.2, hsched.1]
        unfold appliedTempo
        rw [if_pos hdue0]
        rw [List.range_succ_eq_map, List.map_cons, List.map_map]
        show bpm_sequence.getD st.seq_index 0
              :: (List.range k).map
                (fun j => bpm_sequence.getD (((st.seq_index + 1) % 3 + j) % 3) 0)
            = bpm_sequence.getD ((st.seq_index + 0) % 3) 0
              :: (List.range k).map
                ((fun j => bpm_sequence.getD ((st.seq_index + j) % 3) 0) ∘ Nat.succ)
        congr 1
        · have h0 : (st.seq_index + 0) % 3 = st.seq_index := by omega
          rw [h0]
        · apply List.map_congr_left
          intro j hj
          show bpm_sequence.getD (((st.seq_index + 1) % 3 + j) % 3) 0
            = bpm_sequence.getD ((st.seq_index + Nat.succ j) % 3) 0
          have h1 : ((st.seq_index + 1) % 3 + j) % 3 = (st.seq_index + Nat.succ j) % 3 := by
            omega
          rw [h1]

end AutoClock

namespace AutoClock

/-- C10: at most one schedule entry is applied per loop iteration (the
tempo-change check advances the index by at most one), each firing moves
the change point on by exactly 10 seconds no matter how late the check ran,
and when the loop has fallen behind several change points, the overdue
entries are applied in schedule order, exactly one per subsequent
iteration, never several within one iteration. -/
theorem overdue_changes_drain (env : Env) (st : St) (k i : ℕ)
    (hidx : st.seq_index < 3)
    (hdue : ∀ j, j < k → st.next_change_time + 10 * j ≤ env.tChange (i + j)) :
    (∀ (s : St) (now : ℚ) (ok : Bool),
      (tempoChangeStep s now ok).seq_index = s.seq_index ∨
      (tempoChangeStep s now ok).seq_index = (s.seq_index + 1) % 3) ∧
    (∀ (s : St) (now : ℚ) (ok : Bool), s.next_change_time ≤ now →
      (tempoChangeStep s now ok).next_change_time = s.next_change_time + 10) ∧
    (autoRunN env k i st).1.seq_index = (st.seq_index + k) % 3 ∧
    (autoRunN env k i st).1.next_change_time = st.next_change_time + 10 * k ∧
    (autoRunN env k i st).2
      = (List.range k).map (fun j => bpm_sequence.getD ((st.seq_index + j) % 3) 0) := by
  have hstep : ∀ (s : St) (now : ℚ) (ok : Bool),
      (tempoChangeStep s now ok).seq_index = s.seq_index ∨
      (tempoChangeStep s now ok).seq_index = (s.seq_index + 1) % 3 := by
    intro s now ok
    rcases le_or_lt s.next_change_time now with hd | hd
    · right
      cases ok
      · rw [tempoChangeStep_fail_eq s now hd]
        rfl
      · rw [tempoChangeStep_ok_eq s now hd]
        rfl
    · left
      rw [tempoChangeStep_notdue s now ok (not_le.mpr hd)]
  have hbump : ∀ (s : St) (now : ℚ) (ok : Bool), s.next_change_time ≤ now →
      (tempoChangeStep s now ok).next_change_time = s.next_change_time + 10 := by
    intro s now ok hd
    cases ok
    · rw [tempoChangeStep_fail_eq s now hd]
    · rw [tempoChangeStep_ok_eq s now hd]
  exact ⟨hstep, hbump, autoRunN_overdue env k i st hidx hdue⟩

/-- Oracle for the C10 witness: the loop wakes at t = 100, far past
several change points. -/
def envLate : Env :=
  { tChange := fun _ => 100, tSlack := fun _ => 100, tResync := fun _ => 100,
    queueTick := fun _ => 0 }

/-- Witness for C10: from `stA` (change point 10, index 0) two consecutive
iterations at t = 100 apply exactly the first two entries in order and move
the change point to 30. -/
theorem overdue_changes_drain_witness :
    (autoRunN envLate 2 0 stA).1.seq_index = 2 ∧
    (autoRunN envLate 2 0 stA).1.next_change_time = 30 ∧
    (autoRunN envLate 2 0 stA).2 = [80, 140] := by
  have h := overdue_changes_drain envLate stA 2 0 (by norm_num [stA])
    (by
      intro j hj
      interval_cases j <;> norm_num [stA, envLate])
  refine ⟨?_, ?_, ?_⟩
  · rw [h.2.2.1]
    norm_num [stA]
  · rw [h.2.2.2.1]
    norm_num [stA]
  · rw [h.2.2.2.2]
    norm_num [stA, bpm_sequence, List.range_succ]

end AutoClock

namespace AutoClock

/-- The scenario step is the all-success loop body at the current instant. -/
lemma simStep_eq (s : SimSt) :
    simStep s = ⟨(sleepStep ((pulseStep (tempoChangeStep s.st s.t true) 0).1) s.t s.t).1,
                 s.t + (sleepStep ((pulseStep (tempoChangeStep s.st s.t true) 0).1) s.t s.t).2⟩ := by
  unfold simStep
  rw [loopIter_clock_ok]

/-- The pulse step does not touch tempo, interval or deadline. -/
lemma pulseStep_keeps (st : St) (q : ℕ) :
    (pulseStep st q).1.current_bpm = st.current_bpm ∧
    (pulseStep st q).1.tick_interval = st.tick_interval ∧
    (pulseStep st q).1.next_tick_time = st.next_tick_time := by
  rw [pulseStep_eq]
  exact ⟨rfl, rfl, rfl⟩

/-- The sleep step does not touch tempo or interval. -/
lemma sleepStep_keeps (st : St) (t1 t2 : ℚ) :
    (sleepStep st t1 t2).1.current_bpm = st.current_bpm ∧
    (sleepStep st t1 t2).1.tick_interval = st.tick_interval := by
  rw [sleepStep_eq]
  split
  · exact ⟨rfl, rfl⟩
  · split
    · exact ⟨rfl, rfl⟩
    · exact ⟨rfl, rfl⟩

/-- One scenario step when no change is due and the run is phase-aligned:
the clock and the deadline advance by exactly one tick interval and the
tempo state is untouched. -/
lemma simStep_quiet (s : SimSt) (hp : s.st.next_tick_time = s.t)
    (hd : 0 < s.st.tick_interval) (hq : s.t < s.st.next_change_time) :
    (simStep s).t = s.t + s.st.tick_interval ∧
    (simStep s).st.next_tick_time = (simStep s).t ∧
    (simStep s).st.current_bpm = s.st.current_bpm ∧
    (simStep s).st.tick_interval = s.st.tick_interval ∧
    (simStep s).st.seq_index = s.st.seq_index ∧
    (simStep s).st.next_change_time = s.st.next_change_time := by
  have hnc := tempoChangeStep_notdue s.st s.t true (not_le.mpr hq)
  have hk := pulseStep_keeps s.st 0
  have hsc := pulseStep_sched s.st 0
  have hcond : 0 < (pulseStep s.st 0).1.next_tick_time
      + (pulseStep s.st 0).1.tick_interval - s.t := by
    rw [hk.2.2, hk.2.1, hp]
    linarith
  rw [simStep_eq, hnc, sleepStep_eq, if_pos hcond]
  refine ⟨?_, ?_, hk.1, hk.2.1, hsc.1, hsc.2⟩
  · show s.t + ((pulseStep s.st 0).1.next_tick_time
        + (pulseStep s.st 0).1.tick_interval - s.t) = s.t + s.st.tick_interval
    rw [hk.2.2, hk.2.1, hp]
    ring
  · show (pulseStep s.st 0).1.next_tick_time + (pulseStep s.st 0).1.tick_interval
        = s.t + ((pulseStep s.st 0).1.next_tick_time
          + (pulseStep s.st 0).1.tick_interval - s.t)
    ring

/-- One scenario step at a due change point: the pending entry is applied,
the schedule advances, the deadline resyncs to now, and clock and deadline
move one new-tempo interval on. -/
lemma simStep_change (s : SimSt) (hdue : s.st.next_change_time ≤ s.t)
    (hb : 0 < bpm_sequence.getD s.st.seq_index 0) :
    (simStep s).t = s.t + calculate_tick_interval (bpm_sequence.getD s.st.seq_index 0) ∧
    (simStep s).st.next_tick_time = (simStep s).t ∧
    (simStep s).st.current_bpm = bpm_sequence.getD s.st.seq_index 0 ∧
    (simStep s).st.tick_interval
      = calculate_tick_interval (bpm_sequence.getD s.st.seq_index 0) ∧
    (simStep s).st.seq_index = (s.st.seq_index + 1) % 3 ∧
    (simStep s).st.next_change_time = s.st.next_change_time + 10 := by
  have hpos := calculate_tick_interval_pos _ hb
  have e1 := tempoChangeStep_ok_eq s.st s.t hdue
  have hX1 : (tempoChangeStep s.st s.t true).next_tick_time = s.t := by rw [e1]
  have hX2 : (tempoChangeStep s.st s.t true).tick_interval
      = calculate_tick_interval (bpm_sequence.getD s.st.seq_index 0) := by rw [e1]
  have hX3 : (tempoChangeStep s.st s.t true).current_bpm
      = bpm_sequence.getD s.st.seq_index 0 := by rw [e1]
  have hX4 : (tempoChangeStep s.st s.t true).seq_index = (s.st.seq_index + 1) % 3 := by
    rw [e1]
    rfl
  have hX5 : (tempoChangeStep s.st s.t true).next_change_time
      = s.st.next_change_time + 10 := by rw [e1]
  have hk := pulseStep_keeps (tempoChangeStep s.st s.t true) 0
  have hsc := pulseStep_sched (tempoChangeStep s.st s.t true) 0
  have hcond : 0 < (pulseStep (tempoChangeStep s.st s.t true) 0).1.next_tick_time
      + (pulseStep (tempoChangeStep s.st s.t true) 0).1.tick_interval - s.t := by
    rw [hk.2.2, hk.2.1, hX1, hX2]
    linarith
  rw [simStep_eq, sleepStep_eq, if_pos hcond]
  refine ⟨?_, ?_, ?_, ?_, ?_, ?_⟩
  · show s.t + ((pulseStep (tempoChangeStep s.st s.t true) 0).1.next_tick_time
        + (pulseStep (tempoChangeStep s.st s.t true) 0).1.tick_interval - s.t) = _
    rw [hk.2.2, hk.2.1, hX1, hX2]
    ring
  · show (pulseStep (tempoChangeStep s.st s.t true) 0).1.next_tick_time
        + (pulseStep (tempoChangeStep s.st s.t true) 0).1.tick_interval
      = s.t + ((pulseStep (tempoChangeStep s.st s.t true) 0).1.next_tick_time
        + (pulseStep (tempoChangeStep s.st s.t true) 0).1.tick_interval - s.t)
    ring
  · show (pulseStep (tempoChangeStep s.st s.t true) 0).1.current_bpm = _
    rw [hk.1, hX3]
  · show (pulseStep (tempoChangeStep s.st s.t true) 0).1.tick_interval = _
    rw [hk.2.1, hX2]
  · show (pulseStep (tempoChangeStep s.st s.t true) 0).1.seq_index = _
    rw [hsc.1, hX4]
  · show (pulseStep (tempoChangeStep s.st s.t true) 0).1.next_change_time = _
    rw [hsc.2, hX5]

/-- Splitting a scenario run. -/
lemma simSteps_add : ∀ (a b : ℕ) (s : SimSt),
    simSteps (a + b) s = simSteps b (simSteps a s) := by
  intro a
  induction a with
  | zero =>
      intro b s
      rw [Nat.zero_add]
      rfl
  | succ a ih =>
      intro b s
      rw [Nat.succ_add]
      show simSteps (a + b) (simStep s) = simSteps b (simSteps a (simStep s))
      exact ih b (simStep s)

/-- A phase-aligned run with no change due for `k` steps: the clock and the
deadline advance by `k` intervals and the tempo state is untouched. -/
lemma simSteps_quiet : ∀ (k : ℕ) (s : SimSt),
    s.st.next_tick_time = s.t →
    0 < s.st.tick_interval →
    (∀ j : ℕ, j < k → s.t + j * s.st.tick_interval < s.st.next_change_time) →
    (simSteps k s).t = s.t + k * s.st.tick_interval ∧
    (simSteps k s).st.next_tick_time = (simSteps k s).t ∧
    (simSteps k s).st.current_bpm = s.st.current_bpm ∧
    (simSteps k s).st.tick_interval = s.st.tick_interval ∧
    (simSteps k s).st.seq_index = s.st.seq_index ∧
    (simSteps k s).st.next_change_time = s.st.next_change_time := by
  intro k
  induction k with
  | zero =>
      intro s hp hd _
      refine ⟨by simp [simSteps], by simpa [simSteps] using hp, rfl, rfl, rfl, rfl⟩
  | succ k ih =>
      intro s hp hd hq
      have hstep := simStep_quiet s hp hd (by simpa using hq 0 (by omega))
      have ihh := ih (simStep s)
        (by rw [hstep.2.1])
        (by rw [hstep.2.2.2.1]; exact hd)
        (fun j hj => by
          rw [hstep.1, hstep.2.2.2.1, hstep.2.2.2.2.2]
          have h := hq (j+1) (by omega)
          push_cast at h ⊢
          linarith)
      have e : simSteps (k+1) s = simSteps k (simStep s) := rfl
      rw [e]
      refine ⟨?_, ihh.2.1, ?_, ?_, ?_, ?_⟩
      · rw [ihh.1, hstep.1, hstep.2.2.2.1]
        push_cast
        ring
      · rw [ihh.2.2.1, hstep.2.2.1]
      · rw [ihh.2.2.2.1, hstep.2.2.2.1]
      · rw [ihh.2.2.2.2.1, hstep.2.2.2.2.1]
      · rw [ihh.2.2.2.2.2, hstep.2.2.2.2.2]

end AutoClock

namespace AutoClock

/-- Component snapshot of the scenario run after `K` iterations: instant,
deadline, tempo, interval, schedule index and next change point. -/
def stageFacts (K : ℕ) (tv bv dv cv : ℚ) (σ : ℕ) : Prop :=
  (simSteps K simStart).t = tv ∧
  (simSteps K simStart).st.next_tick_time = tv ∧
  (simSteps K simStart).st.current_bpm = bv ∧
  (simSteps K simStart).st.tick_interval = dv ∧
  (simSteps K simStart).st.seq_index = σ ∧
  (simSteps K simStart).st.next_change_time = cv

/-- Numeric values of a stage snapshot can be rewritten. -/
lemma stageFacts_cast {K : ℕ} {tv tv2 bv dv cv cv2 : ℚ} {σ : ℕ}
    (h : stageFacts K tv bv dv cv σ) (he : tv = tv2) (hc : cv = cv2) :
    stageFacts K tv2 bv dv cv2 σ :=
  he ▸ hc ▸ h

/-- A quiet phase: `k` iterations with no change due advance the snapshot
by `k` intervals. -/
lemma sim_stage_quiet {K : ℕ} {tv bv dv cv : ℚ} {σ : ℕ} (k : ℕ)
    (h : stageFacts K tv bv dv cv σ) (hd : 0 < dv)
    (hq : ∀ j : ℕ, j < k → tv + j * dv < cv) :
    stageFacts (K + k) (tv + k * dv) bv dv cv σ := by
  obtain ⟨h1, h2, h3, h4, h5, h6⟩ := h
  have e : simSteps (K + k) simStart = simSteps k (simSteps K simStart) :=
    simSteps_add K k simStart
  have hrun := simSteps_quiet k (simSteps K simStart)
    (by rw [h2, h1]) (by rw [h4]; exact hd)
    (fun j hj => by rw [h1, h4, h6]; exact hq j hj)
  refine ⟨?_, ?_, ?_, ?_, ?_, ?_⟩ <;> rw [e]
  · rw [hrun.1, h1, h4]
  · rw [hrun.2.1, hrun.1, h1, h4]
  · rw [hrun.2.2.1, h3]
  · rw [hrun.2.2.2.1, h4]
  · rw [hrun.2.2.2.2.1, h5]
  · rw [hrun.2.2.2.2.2, h6]

/-- A change phase: at a due change point one entry is applied, then `k`
quiet iterations run at the new tempo. -/
lemma sim_stage {K : ℕ} {tv bv dv cv : ℚ} {σ : ℕ} (k : ℕ) (bN dN : ℚ)
    (h : stageFacts K tv bv dv cv σ)
    (hdue : cv ≤ tv)
    (hbN : bpm_sequence.getD σ 0 = bN)
    (hbpos : 0 < bN)
    (hdN : calculate_tick_interval bN = dN)
    (hq : ∀ j : ℕ, j < k → (tv + dN) + j * dN < cv + 10) :
    stageFacts (K + 1 + k) (tv + dN + k * dN) bN dN (cv + 10) ((σ + 1) % 3) := by
  obtain ⟨h1, h2, h3, h4, h5, h6⟩ := h
  have hdpos : 0 < dN := by
    rw [← hdN]
    exact calculate_tick_interval_pos _ hbpos
  have hc := simStep_change (simSteps K simStart)
    (by rw [h6, h1]; exact hdue)
    (by rw [h5, hbN]; exact hbpos)
  rw [h5, hbN, hdN, h1, h6] at hc
  have e1 : simSteps (K + 1) simStart = simStep (simSteps K simStart) :=
    simSteps_add K 1 simStart
  have g1 : (simSteps (K + 1) simStart).t = tv + dN := by
    rw [e1]
    exact hc.1
  have g2 : (simSteps (K + 1) simStart).st.next_tick_time = tv + dN := by
    rw [e1, hc.2.1]
    exact hc.1
  have g3 : (simSteps (K + 1) simStart).st.current_bpm = bN := by
    rw [e1]
    exact hc.2.2.1
  have g4 : (simSteps (K + 1) simStart).st.tick_interval = dN := by
    rw [e1]
    exact hc.2.2.2.1
  have g5 : (simSteps (K + 1) simStart).st.seq_index = (σ + 1) % 3 := by
    rw [e1]
    exact hc.2.2.2.2.1
  have g6 : (simSteps (K + 1) simStart).st.next_change_time = cv + 10 := by
    rw [e1]
    exact hc.2.2.2.2.2
  exact sim_stage_quiet k ⟨g1, g2, g3, g4, g5, g6⟩ hdpos hq

/-- Snapshot at the start of the scenario. -/
lemma stage_start : stageFacts 0 0 120 (1/48) 10 0 := by
  refine ⟨rfl, rfl, rfl, ?_, rfl, rfl⟩
  show simStart.st.tick_interval = 1/48
  norm_num [simStart, BPM, calculate_tick_interval, PPQN]

/-- The scenario snapshots that settle the reference schedule claim: at
iteration 1360 the clock reads t = 30 with tempo 140 still current; the
third entry (120) is applied during that iteration; and at t = 35
(iteration 1600) the tempo is 120. -/
lemma sim_run_facts :
    stageFacts 1360 30 140 (1/56) 30 2 ∧
    stageFacts 1361 (30 + 1/48) 120 (1/48) 40 0 ∧
    stageFacts 1600 35 120 (1/48) 40 0 := by
  have s0 : stageFacts 0 0 120 (1/48) 10 0 := stage_start
  have s480 : stageFacts 480 10 120 (1/48) 10 0 := by
    refine stageFacts_cast (sim_stage_quiet 480 s0 (by norm_num) ?_) (by norm_num) rfl
    intro j hj
    have hj2 : (j:ℚ) < 480 := by exact_mod_cast hj
    linarith
  have step1 := sim_stage 319 80 (1/32) s480 (by norm_num) rfl (by norm_num)
    (by norm_num [calculate_tick_interval, PPQN])
    (fun j hj => by
      have hj2 : (j:ℚ) < 319 := by exact_mod_cast hj
      linarith)
  have s800 : stageFacts 800 20 80 (1/32) 20 1 :=
    stageFacts_cast step1 (by norm_num) (by norm_num)
  have step2 := sim_stage 559 140 (1/56) s800 (by norm_num) rfl (by norm_num)
    (by norm_num [calculate_tick_interval, PPQN])
    (fun j hj => by
      have hj2 : (j:ℚ) < 559 := by exact_mod_cast hj
      linarith)
  have s1360 : stageFacts 1360 30 140 (1/56) 30 2 :=
    stageFacts_cast step2 (by norm_num) (by norm_num)
  have step3 := sim_stage 0 120 (1/48) s1360 (by norm_num) rfl (by norm_num)
    (by norm_num [calculate_tick_interval, PPQN])
    (fun j hj => absurd hj (Nat.not_lt_zero j))
  have s1361 : stageFacts 1361 (30 + 1/48) 120 (1/48) 40 0 :=
    stageFacts_cast step3 (by norm_num) (by norm_num)
  have s1600 : stageFacts 1600 35 120 (1/48) 40 0 := by
    refine stageFacts_cast (sim_stage_quiet 239 s1361 (by norm_num) ?_)
      (by norm_num) rfl
    intro j hj
    have hj2 : (j:ℚ) < 239 := by exact_mod_cast hj
    linarith
  exact ⟨s1360, s1361, s1600⟩

/-- C3 counterexample: in the reference scenario (start at t = 0, schedule
`[80,140,120]` firing at t = 10, 20, 30, no stalls, no `set_tempo`
failures) the current tempo at t = 35 s is not 140: the third entry (120)
was already applied at t = 30. -/
theorem schedule_scenario_cex :
    (simSteps 1600 simStart).t = 35 ∧
    (simSteps 1600 simStart).st.current_bpm ≠ 140 := by
  obtain ⟨-, -, h⟩ := sim_run_facts
  refine ⟨h.1, ?_⟩
  rw [h.2.2.1]
  norm_num

/-- C3 amended: in the reference scenario the tempo current at t = 35 s is
120, the schedule entry most recently due — the third entry, applied at
the iteration where the clock reads t = 30; until then (so through
t ∈ (20, 30)) the second entry 140 was current. -/
theorem schedule_scenario_tempo :
    (simSteps 1600 simStart).t = 35 ∧
    (simSteps 1600 simStart).st.current_bpm = 120 ∧
    (simSteps 1600 simStart).st.current_bpm = bpm_sequence.getD 2 0 ∧
    (simSteps 1360 simStart).t = 30 ∧
    (simSteps 1360 simStart).st.current_bpm = 140 ∧
    (simSteps 1361 simStart).st.current_bpm = 120 := by
  obtain ⟨h1360, h1361, h1600⟩ := sim_run_facts
  refine ⟨h1600.1, h1600.2.2.1, ?_, h1360.1, h1360.2.2.1, h1361.2.2.1⟩
  rw [h1600.2.2.1]
  norm_num [bpm_sequence]

end AutoClock
